import Mathlib

/-!
Verification development for the chess-simulator controller.

The repository delegates chess rules to the chess.js library and implements a
game-state synchronization / move-orchestration controller on top of it
(`syncGameState`, `makeMove`, `onSquareClick`, `resetGame`, `undoMove`,
`getCoachAnalysis`).  This file shallowly embeds both:

* a faithful model of the chess.js operations the controller uses
  (construction from a FEN, `move`, `undo`, `history({verbose:true})`,
  `turn`, `get`, `moves({square})`, `isCheck`, `isCheckmate`, `isDraw`,
  `isStalemate`, `isThreefoldRepetition`), and
* the controller itself, as pure state-transition functions over an
  `AppState` record mirroring the component's `useState` fields, returning
  the list of sound-event tags passed to `playSound` (the mute flag only
  suppresses the call into the audio capability, not the classification).

FEN strings are modelled by the `Position` value they serialize: chess.js's
`fen()`/constructor round-trip preserves exactly the fields of `Position`
(board, turn, castling rights, en-passant square, halfmove clock, fullmove
number) and discards the instance's move history, which is the load-bearing
behaviour here.  SAN strings and the `flags` field of verbose history
entries are presentation-only (never read by the controller logic) and are
omitted from the history record.
-/

namespace ChessApp

inductive Color where
  | white
  | black
deriving DecidableEq, Repr

def Color.flip : Color → Color
  | .white => .black
  | .black => .white

inductive PieceKind where
  | pawn
  | knight
  | bishop
  | rook
  | queen
  | king
deriving DecidableEq, Repr

structure Piece where
  color : Color
  kind : PieceKind
deriving DecidableEq, Repr

/-- The board is a list of 64 squares; square index = file + 8 * rank,
with file 0 = the a-file and rank 0 = rank 1 (so index 0 is a1, 4 is e1,
12 is e2, 60 is e8). -/
abbrev Board := List (Option Piece)

structure CastlingRights where
  wk : Bool
  wq : Bool
  bk : Bool
  bq : Bool
deriving DecidableEq, Repr

/-- The authoritative game position: exactly the information serialized in a
FEN string (chess.js state minus its history). -/
structure Position where
  board : Board
  turn : Color
  castling : CastlingRights
  epSquare : Option Nat
  halfmoves : Nat
  fullmoves : Nat
deriving DecidableEq, Repr

def fileOf (s : Nat) : Nat := s % 8

def rankOf (s : Nat) : Nat := s / 8

def getP (b : Board) (s : Nat) : Option Piece := b.getD s none

/-- Offset a square by a (file, rank) delta, returning `none` when the
result leaves the board. -/
def shift (s : Nat) (df dr : Int) : Option Nat :=
  let f : Int := (fileOf s : Int) + df
  let r : Int := (rankOf s : Int) + dr
  if 0 ≤ f ∧ f < 8 ∧ 0 ≤ r ∧ r < 8 then some (f.toNat + 8 * r.toNat) else none

def knightOffsets : List (Int × Int) :=
  [(1, 2), (2, 1), (2, -1), (1, -2), (-1, -2), (-2, -1), (-2, 1), (-1, 2)]

def kingDirs : List (Int × Int) :=
  [(1, 0), (1, 1), (0, 1), (-1, 1), (-1, 0), (-1, -1), (0, -1), (1, -1)]

def rookDirs : List (Int × Int) := [(1, 0), (-1, 0), (0, 1), (0, -1)]

def bishopDirs : List (Int × Int) := [(1, 1), (1, -1), (-1, 1), (-1, -1)]

/-- Walk a ray from a square: all empty squares passed over, plus the first
occupied square reached (whatever its color); fuel-bounded by board size. -/
def rayGo (b : Board) (df dr : Int) : Nat → Nat → List Nat
  | 0, _ => []
  | fuel + 1, cur =>
    match shift cur df dr with
    | none => []
    | some nxt =>
      match getP b nxt with
      | none => nxt :: rayGo b df dr fuel nxt
      | some _ => [nxt]

def rayTargets (b : Board) (s : Nat) (df dr : Int) : List Nat :=
  rayGo b df dr 7 s

/-- Does the piece `p` standing on square `s` attack square `t`? -/
def pieceAttacks (b : Board) (s : Nat) (p : Piece) (t : Nat) : Bool :=
  match p.kind with
  | .pawn =>
    let dr : Int := if p.color = .white then 1 else -1
    decide (shift s 1 dr = some t) || decide (shift s (-1) dr = some t)
  | .knight => knightOffsets.any (fun o => decide (shift s o.1 o.2 = some t))
  | .king => kingDirs.any (fun o => decide (shift s o.1 o.2 = some t))
  | .bishop => bishopDirs.any (fun d => (rayTargets b s d.1 d.2).contains t)
  | .rook => rookDirs.any (fun d => (rayTargets b s d.1 d.2).contains t)
  | .queen =>
    (rookDirs ++ bishopDirs).any (fun d => (rayTargets b s d.1 d.2).contains t)

/-- Is square `t` attacked by any piece of color `c`?  Mirrors chess.js's
whole-board attacker scan. -/
def attacked (b : Board) (c : Color) (t : Nat) : Bool :=
  (List.range 64).any (fun s =>
    match getP b s with
    | some p => if p.color = c then pieceAttacks b s p t else false
    | none => false)

def kingSquare (b : Board) (c : Color) : Option Nat :=
  (List.range 64).find? (fun s => decide (getP b s = some (Piece.mk c PieceKind.king)))

/-- Is the king of color `c` attacked?  As in chess.js, a board with no
king of that color reports `false`. -/
def kingAttacked (b : Board) (c : Color) : Bool :=
  match kingSquare b c with
  | none => false
  | some k => attacked b c.flip k

/-- An engine-level generated move (chess.js internal move record). -/
structure EMove where
  fromSq : Nat
  toSq : Nat
  piece : PieceKind
  capture : Option PieceKind
  promotion : Option PieceKind
  isEp : Bool
  isDoublePush : Bool
  /-- `some true` = kingside castle, `some false` = queenside castle. -/
  castle : Option Bool
deriving DecidableEq, Repr

def promoKinds : List PieceKind := [.queen, .rook, .bishop, .knight]

def pawnMoves (pos : Position) (s : Nat) : List EMove :=
  let c := pos.turn
  let dr : Int := if c = .white then 1 else -1
  let startRank := if c = .white then 1 else 6
  let promoRank := if c = .white then 7 else 0
  let mk : Nat → Option PieceKind → Bool → List EMove := fun t cap ep =>
    if rankOf t = promoRank then
      promoKinds.map (fun k => ⟨s, t, .pawn, cap, some k, ep, false, none⟩)
    else
      [⟨s, t, .pawn, cap, none, ep, false, none⟩]
  let fwd : List EMove :=
    match shift s 0 dr with
    | some t =>
      if getP pos.board t = none then
        mk t none false ++
          (if rankOf s = startRank then
            match shift s 0 (2 * dr) with
            | some t2 =>
              if getP pos.board t2 = none then
                [⟨s, t2, .pawn, none, none, false, true, none⟩]
              else []
            | none => []
          else [])
      else []
    | none => []
  let caps : List EMove :=
    ([(1 : Int), -1].map (fun df =>
      match shift s df dr with
      | some t =>
        match getP pos.board t with
        | some q => if q.color = c then [] else mk t (some q.kind) false
        | none =>
          if pos.epSquare = some t then
            [⟨s, t, .pawn, some .pawn, none, true, false, none⟩]
          else []
      | none => [])).flatten
  fwd ++ caps

def stepMoves (pos : Position) (s : Nat) (kind : PieceKind)
    (offs : List (Int × Int)) : List EMove :=
  offs.filterMap (fun o =>
    match shift s o.1 o.2 with
    | none => none
    | some t =>
      match getP pos.board t with
      | none => some ⟨s, t, kind, none, none, false, false, none⟩
      | some q =>
        if q.color = pos.turn then none
        else some ⟨s, t, kind, some q.kind, none, false, false, none⟩)

def slideMoves (pos : Position) (s : Nat) (kind : PieceKind)
    (dirs : List (Int × Int)) : List EMove :=
  (dirs.map (fun d =>
    (rayTargets pos.board s d.1 d.2).filterMap (fun t =>
      match getP pos.board t with
      | none => some ⟨s, t, kind, none, none, false, false, none⟩
      | some q =>
        if q.color = pos.turn then none
        else some ⟨s, t, kind, some q.kind, none, false, false, none⟩))).flatten

/-- Castling generation as in chess.js: rights present, squares between king
and rook empty, king's square and the square it crosses not attacked (the
destination square is vetted by the post-move king-safety filter). -/
def castleMoves (pos : Position) (s : Nat) : List EMove :=
  let c := pos.turn
  let home : Nat := if c = .white then 4 else 60
  if s = home then
    let enemy := c.flip
    let ksRight := if c = .white then pos.castling.wk else pos.castling.bk
    let qsRight := if c = .white then pos.castling.wq else pos.castling.bq
    let ks : List EMove :=
      if ksRight = true ∧ getP pos.board (home + 1) = none ∧
          getP pos.board (home + 2) = none ∧
          attacked pos.board enemy home = false ∧
          attacked pos.board enemy (home + 1) = false then
        [⟨s, home + 2, .king, none, none, false, false, some true⟩]
      else []
    let qs : List EMove :=
      if qsRight = true ∧ getP pos.board (home - 1) = none ∧
          getP pos.board (home - 2) = none ∧ getP pos.board (home - 3) = none ∧
          attacked pos.board enemy home = false ∧
          attacked pos.board enemy (home - 1) = false then
        [⟨s, home - 2, .king, none, none, false, false, some false⟩]
      else []
    ks ++ qs
  else []

/-- Pseudo-legal moves of the side to move from one square. -/
def pseudoMoves (pos : Position) (s : Nat) : List EMove :=
  match getP pos.board s with
  | some p =>
    if p.color = pos.turn then
      match p.kind with
      | .pawn => pawnMoves pos s
      | .knight => stepMoves pos s .knight knightOffsets
      | .bishop => slideMoves pos s .bishop bishopDirs
      | .rook => slideMoves pos s .rook rookDirs
      | .queen => slideMoves pos s .queen (rookDirs ++ bishopDirs)
      | .king => stepMoves pos s .king kingDirs ++ castleMoves pos s
    else []
  | none => []

/-- Castling-rights bookkeeping: moving from (or capturing on) the king or
rook home squares clears the corresponding rights. -/
def clearRights (cr : CastlingRights) (sq : Nat) : CastlingRights :=
  let cr := if sq = 4 then { cr with wk := false, wq := false } else cr
  let cr := if sq = 60 then { cr with bk := false, bq := false } else cr
  let cr := if sq = 7 then { cr with wk := false } else cr
  let cr := if sq = 0 then { cr with wq := false } else cr
  let cr := if sq = 63 then { cr with bk := false } else cr
  let cr := if sq = 56 then { cr with bq := false } else cr
  cr

def applyEMove (pos : Position) (m : EMove) : Position :=
  let c := pos.turn
  let movedPiece : Piece :=
    ⟨c, match m.promotion with | some k => k | none => m.piece⟩
  let b := pos.board.set m.fromSq none
  let b :=
    if m.isEp then
      b.set (if c = .white then m.toSq - 8 else m.toSq + 8) none
    else b
  let b := b.set m.toSq (some movedPiece)
  let b :=
    match m.castle with
    | some true =>
      if c = .white then (b.set 7 none).set 5 (some ⟨c, .rook⟩)
      else (b.set 63 none).set 61 (some ⟨c, .rook⟩)
    | some false =>
      if c = .white then (b.set 0 none).set 3 (some ⟨c, .rook⟩)
      else (b.set 56 none).set 59 (some ⟨c, .rook⟩)
    | none => b
  { board := b
    turn := c.flip
    castling := clearRights (clearRights pos.castling m.fromSq) m.toSq
    epSquare :=
      if m.isDoublePush then
        some (if c = .white then m.fromSq + 8 else m.fromSq - 8)
      else none
    halfmoves :=
      if m.piece = .pawn ∨ m.capture.isSome then 0 else pos.halfmoves + 1
    fullmoves := if c = .black then pos.fullmoves + 1 else pos.fullmoves }

/-- Legal moves from one square: pseudo-legal moves that do not leave the
mover's own king attacked (chess.js `moves({ square })`). -/
def legalFromSq (pos : Position) (s : Nat) : List EMove :=
  (pseudoMoves pos s).filter
    (fun m => !(kingAttacked (applyEMove pos m).board pos.turn))

def hasLegalMove (pos : Position) : Bool :=
  (List.range 64).any (fun s => !(legalFromSq pos s).isEmpty)

def inCheck (pos : Position) : Bool := kingAttacked pos.board pos.turn

/-- chess.js `_isInsufficientMaterial`: two bare kings; king + one minor
piece vs king; or only kings and same-colored-square bishops. -/
def insufficientMaterial (b : Board) : Bool :=
  let occ : List (Piece × Nat) :=
    (List.range 64).filterMap (fun s =>
      (getP b s).map (fun p => (p, (fileOf s + rankOf s) % 2)))
  let n := occ.length
  let bishopColors : List Nat := occ.filterMap (fun x =>
    if x.1.kind = PieceKind.bishop then some x.2 else none)
  let nb := bishopColors.length
  let nn := (occ.filter (fun x => decide (x.1.kind = PieceKind.knight))).length
  if n = 2 then true
  else if n = 3 ∧ (nb = 1 ∨ nn = 1) then true
  else if n = nb + 2 ∧ bishopColors.all (fun k => decide (k = bishopColors.headD 0)) then
    true
  else false

/-- One entry of chess.js's `history({ verbose: true })`, restricted to the
fields the controller reads (`color`, `from`, `to`, `piece`, `captured`,
`promotion`; the `san`/`flags` strings are presentation-only). -/
structure HistMove where
  color : Color
  fromSq : Nat
  toSq : Nat
  piece : PieceKind
  captured : Option PieceKind
  promotion : Option PieceKind
deriving DecidableEq, Repr

/-- The repetition-tracking key: the position fields chess.js compares when
counting occurrences of a position. -/
structure RepKey where
  board : Board
  turn : Color
  castling : CastlingRights
  epSquare : Option Nat
deriving DecidableEq, Repr

def repKey (pos : Position) : RepKey :=
  ⟨pos.board, pos.turn, pos.castling, pos.epSquare⟩

/-- A chess.js `Chess` instance: the current position plus the history made
on this instance (with the pre-move positions kept for `undo`, and the list
of positions seen since construction for repetition detection). -/
structure Chess where
  pos : Position
  hist : List HistMove
  prev : List Position
  reps : List RepKey
deriving DecidableEq, Repr

/-- `new Chess(fen)`: loads the position, with empty history — this is the
behaviour the controller relies on when it writes `new Chess(game.fen())`. -/
def Chess.fromPos (p : Position) : Chess := ⟨p, [], [], [repKey p]⟩

def startBoard : Board :=
  ([Piece.mk .white .rook, ⟨.white, .knight⟩, ⟨.white, .bishop⟩,
      ⟨.white, .queen⟩, ⟨.white, .king⟩, ⟨.white, .bishop⟩,
      ⟨.white, .knight⟩, ⟨.white, .rook⟩].map some) ++
    List.replicate 8 (some ⟨.white, .pawn⟩) ++
    List.replicate 32 none ++
    List.replicate 8 (some ⟨.black, .pawn⟩) ++
    ([Piece.mk .black .rook, ⟨.black, .knight⟩, ⟨.black, .bishop⟩,
      ⟨.black, .queen⟩, ⟨.black, .king⟩, ⟨.black, .bishop⟩,
      ⟨.black, .knight⟩, ⟨.black, .rook⟩].map some)

def startPosition : Position :=
  { board := startBoard
    turn := .white
    castling := ⟨true, true, true, true⟩
    epSquare := none
    halfmoves := 0
    fullmoves := 1 }

/-- `new Chess()`: the standard starting position. -/
def Chess.initial : Chess := Chess.fromPos startPosition

/-- The move object handed to `chess.move({ from, to, promotion })`. -/
structure MoveInput where
  fromSq : Nat
  toSq : Nat
  promotion : Option PieceKind
deriving DecidableEq, Repr

def histOf (c : Color) (m : EMove) : HistMove :=
  ⟨c, m.fromSq, m.toSq, m.piece, m.capture, m.promotion⟩

/-- chess.js `move()`: find a legal move matching the given from/to squares
(a promotion move additionally requires a matching `promotion` field, while
an explicitly supplied promotion is ignored on non-promotion moves); apply
it, append it to the history, and return the verbose move record.  Returns
`none` (the controller's caught throw / null result) on an illegal move. -/
def Chess.move (c : Chess) (m : MoveInput) : Option (Chess × HistMove) :=
  match (legalFromSq c.pos m.fromSq).find? (fun em =>
      decide (em.toSq = m.toSq) &&
        (decide (em.promotion = none) || decide (em.promotion = m.promotion))) with
  | none => none
  | some em =>
    let pos2 := applyEMove c.pos em
    let rec2 := histOf c.pos.turn em
    some (⟨pos2, c.hist ++ [rec2], c.pos :: c.prev, c.reps ++ [repKey pos2]⟩, rec2)

/-- chess.js `undo()`: restore the previous position and drop the last
history entry; a no-op (returning null) when this instance has no history. -/
def Chess.undo (c : Chess) : Chess :=
  match c.prev with
  | [] => c
  | p :: rest => ⟨p, c.hist.dropLast, rest, c.reps.dropLast⟩

def Chess.turn (c : Chess) : Color := c.pos.turn

def Chess.get (c : Chess) (sq : Nat) : Option Piece := getP c.pos.board sq

def Chess.isCheck (c : Chess) : Bool := inCheck c.pos

def Chess.isCheckmate (c : Chess) : Bool := inCheck c.pos && !hasLegalMove c.pos

def Chess.isStalemate (c : Chess) : Bool := !inCheck c.pos && !hasLegalMove c.pos

def Chess.isThreefoldRepetition (c : Chess) : Bool :=
  decide (3 ≤ c.reps.count (repKey c.pos))

/-- chess.js `isDraw()`: fifty-move rule, stalemate, insufficient material,
or threefold repetition. -/
def Chess.isDraw (c : Chess) : Bool :=
  decide (c.pos.halfmoves ≥ 100) || Chess.isStalemate c ||
    insufficientMaterial c.pos.board || Chess.isThreefoldRepetition c

/-- The sound/feedback event tags (the `SoundType` enum: MOVE, CAPTURE,
CHECK, START, END — END is named `gameEnd` here). -/
inductive SoundType where
  | move
  | capture
  | check
  | start
  | gameEnd
deriving DecidableEq, Repr

/-- The `fen` field of the rendered game state: the literal placeholder
string the initial `useState` holds, or a serialized position. -/
inductive FenVal where
  | startTag
  | ofPos (p : Position)
deriving DecidableEq, Repr

/-- The `winner` field: a color, the sentinel string "draw", or null. -/
inductive Winner where
  | color (c : Color)
  | drawn
deriving DecidableEq, Repr

/-- The per-side captured-piece lists: `w` holds white pieces that were
captured (by black), `b` holds black pieces captured (by white). -/
structure CapturedLists where
  w : List PieceKind
  b : List PieceKind
deriving DecidableEq, Repr

/-- The `GameState` object of the component (the rendered snapshot). -/
structure GameState where
  fen : FenVal
  turn : Color
  history : List HistMove
  isCheck : Bool
  isCheckmate : Bool
  isDraw : Bool
  winner : Option Winner
  captured : CapturedLists
deriving DecidableEq, Repr

/-- The component's `useState` fields. -/
structure AppState where
  game : Chess
  selectedSquare : Option Nat
  validMoves : List Nat
  gameState : GameState
  analysis : Option String
  isAnalyzing : Bool
  isMuted : Bool
deriving DecidableEq, Repr

/-- The initial `useState` values (note the literal placeholder in `fen`;
no effect runs an initial sync). -/
def initialAppState : AppState :=
  { game := Chess.initial
    selectedSquare := none
    validMoves := []
    gameState :=
      { fen := .startTag
        turn := .white
        history := []
        isCheck := false
        isCheckmate := false
        isDraw := false
        winner := none
        captured := ⟨[], []⟩ }
    analysis := none
    isAnalyzing := false
    isMuted := false }

/-- `syncGameState` (source lines 44–67): rebuild the rendered snapshot
from the chess.js instance, recomputing the captured lists by scanning the
instance's verbose history and attributing each captured piece to the color
opposite the mover. -/
def syncGameState (chess : Chess) : GameState :=
  let history := chess.hist
  let captured : CapturedLists :=
    history.foldl (fun acc m =>
      match m.captured with
      | none => acc
      | some k =>
        if m.color = .white then { acc with b := acc.b ++ [k] }
        else { acc with w := acc.w ++ [k] }) ⟨[], []⟩
  { fen := .ofPos chess.pos
    turn := Chess.turn chess
    history := history
    isCheck := Chess.isCheck chess
    isCheckmate := Chess.isCheckmate chess
    isDraw := Chess.isDraw chess || Chess.isStalemate chess ||
      Chess.isThreefoldRepetition chess
    winner :=
      if Chess.isCheckmate chess then
        some (.color (if Chess.turn chess = .white then .black else .white))
      else if Chess.isDraw chess then some .drawn
      else none
    captured := captured }

/-- `makeMove` (source lines 69–97): build a fresh engine from the current
FEN, try the move; on success replace the game, resync the snapshot, play
exactly one sound chosen by the end/check/capture/move priority chain, and
clear the selection, the legal-destination list and the analysis text; on
an engine rejection return null with no state change and no sound. -/
def makeMove (s : AppState) (mv : MoveInput) :
    AppState × List SoundType × Option HistMove :=
  match (Chess.fromPos s.game.pos).move mv with
  | some (chess2, result) =>
    let sound :=
      if Chess.isCheckmate chess2 || Chess.isDraw chess2 then SoundType.gameEnd
      else if Chess.isCheck chess2 then SoundType.check
      else if result.captured.isSome then SoundType.capture
      else SoundType.move
    ({ s with
        game := chess2
        gameState := syncGameState chess2
        selectedSquare := none
        validMoves := []
        analysis := none },
      [sound], some result)
  | none => (s, [], none)

/-- `onSquareClick` (source lines 99–124): ignore clicks once the snapshot
records checkmate or draw; a click on the selected square deselects; with a
selection, first attempt the move (always defaulting the promotion to
queen) and return on success; otherwise run the selection logic — select a
piece of the side to move (storing its legal destinations), else clear. -/
def onSquareClick (s : AppState) (sq : Nat) : AppState × List SoundType :=
  if (s.gameState.isCheckmate || s.gameState.isDraw) = true then (s, [])
  else if s.selectedSquare = some sq then
    ({ s with selectedSquare := none, validMoves := [] }, [])
  else
    let tryMove : Option (AppState × List SoundType) :=
      match s.selectedSquare with
      | some src =>
        match makeMove s ⟨src, sq, some .queen⟩ with
        | (s2, evs, some _) => some (s2, evs)
        | (_, _, none) => none
      | none => none
    match tryMove with
    | some out => out
    | none =>
      match Chess.get s.game sq with
      | some p =>
        if p.color = Chess.turn s.game then
          ({ s with
              selectedSquare := some sq
              validMoves := (legalFromSq s.game.pos sq).map (fun m => m.toSq) },
            [])
        else ({ s with selectedSquare := none, validMoves := [] }, [])
      | none => ({ s with selectedSquare := none, validMoves := [] }, [])

/-- `resetGame` (source lines 126–134): fresh start position, resync, clear
analysis and selection, play the start sound. -/
def resetGame (s : AppState) : AppState × List SoundType :=
  ({ s with
      game := Chess.initial
      gameState := syncGameState Chess.initial
      analysis := none
      selectedSquare := none
      validMoves := [] },
    [SoundType.start])

/-- The advisory request payload captured at the `await` suspension point of
`getCoachAnalysis` (source line 138): the FEN and history of the instance at
issue time. -/
structure AdvisoryRequest where
  pos : Position
  hist : List HistMove
deriving DecidableEq, Repr

/-- The synchronous prefix of `getCoachAnalysis` (source lines 136–138):
mark the analyzer busy and issue the request for the current position. -/
def getCoachAnalysisStart (s : AppState) : AppState × AdvisoryRequest :=
  ({ s with isAnalyzing := true }, ⟨s.game.pos, s.game.hist⟩)

/-- The continuation of `getCoachAnalysis` after the `await` (source lines
139–140): store the returned text and clear the busy flag.  The handler
takes no request token and performs no comparison against the current
position — the result is applied unconditionally. -/
def getCoachAnalysisComplete (s : AppState) (result : String) : AppState :=
  { s with analysis := some result, isAnalyzing := false }

/-- `undoMove` (source lines 143–151): build a fresh engine from the current
FEN (whose history is therefore empty), call `undo` on it, resync, clear
the selection, and play the move sound unconditionally.  The analysis text
is not touched. -/
def undoMove (s : AppState) : AppState × List SoundType :=
  let chess := (Chess.fromPos s.game.pos).undo
  ({ s with
      game := chess
      gameState := syncGameState chess
      selectedSquare := none
      validMoves := [] },
    [SoundType.move])

/-- The feedback classifier of spec section 4.2, stated as a standalone
function of a move's resulting metadata: game ended, side to move in
check, capture, in strict priority order. -/
def feedbackFor (ended chk cap : Bool) : SoundType :=
  if ended then .gameEnd
  else if chk then .check
  else if cap then .capture
  else .move

/-! Concrete states used by the theorems below.  Square indices: e2 = 12,
e4 = 28, e5 = 36, e7 = 52, d5 = 35, d7 = 51, f6 = 45, g8 = 62, e1 = 4. -/

def mvE2E4 : MoveInput := ⟨12, 28, some .queen⟩

def appAfterE4 : AppState := (makeMove initialAppState mvE2E4).1

def appAfterE4E5 : AppState := (makeMove appAfterE4 ⟨52, 36, some .queen⟩).1

def appAfterE4D5 : AppState := (makeMove appAfterE4 ⟨51, 35, some .queen⟩).1

def appAfterCapture : AppState := (makeMove appAfterE4D5 ⟨28, 35, some .queen⟩).1

def appAfterNf6 : AppState := (makeMove appAfterCapture ⟨62, 45, some .queen⟩).1

def appAfterE4Advice : AppState := getCoachAnalysisComplete appAfterE4 "advice"

/-- The state after 1. e4 with coach commentary displayed for it. -/
def appAfterE4Tip : AppState := getCoachAnalysisComplete appAfterE4 "tip"

/-- A bare-kings position (white Ke1, black Ke8, white to move): drawn by
insufficient material, yet both kings still have legal moves. -/
def kvkPos : Position :=
  { board :=
      ((List.replicate 64 (none : Option Piece)).set 4
          (some ⟨.white, .king⟩)).set 60 (some ⟨.black, .king⟩)
    turn := .white
    castling := ⟨false, false, false, false⟩
    epSquare := none
    halfmoves := 0
    fullmoves := 1 }

/-- An app state whose snapshot records the bare-kings draw. -/
def kvkApp : AppState :=
  { game := Chess.fromPos kvkPos
    selectedSquare := none
    validMoves := []
    gameState := syncGameState (Chess.fromPos kvkPos)
    analysis := none
    isAnalyzing := false
    isMuted := false }

/-- The state after clicking e2 at the start: e2 selected, destinations
e3 (20) and e4 (28) stored. -/
def selState : AppState := (onSquareClick initialAppState 12).1

/-- The same selection but with the stored legal-destination list emptied,
to show the list never gates move attempts. -/
def selStateNoHints : AppState := { selState with validMoves := [] }

/-- Claim C1: the captured lists in the rebuilt snapshot are supposed to
equal the captures over the entire game's applied-move history.  The code
rebuilds the engine from FEN on every move, so the snapshot's history never
holds more than the last move: after 1. e4 d5 2. exd5 Nf6 the white pawn's
capture of the black d-pawn (correctly shown right after 2. exd5) vanishes
from the captured lists on the very next move. -/
theorem c1_captured_forgets_earlier_captures :
    (makeMove initialAppState mvE2E4).2.2.isSome = true ∧
    (makeMove appAfterE4 ⟨51, 35, some .queen⟩).2.2.isSome = true ∧
    (makeMove appAfterE4D5 ⟨28, 35, some .queen⟩).2.2 =
      some ⟨.white, 28, 35, .pawn, some .pawn, none⟩ ∧
    appAfterCapture.gameState.captured = ⟨[], [.pawn]⟩ ∧
    (makeMove appAfterCapture ⟨62, 45, some .queen⟩).2.2 =
      some ⟨.black, 62, 45, .knight, none, none⟩ ∧
    appAfterNf6.gameState.captured = ⟨[], []⟩ ∧
    appAfterNf6.gameState.history.length = 1 := by decide

/-- Claim C2: `undoMove` is supposed to pop the last applied move, clear the
advisory text, and be a silent no-op on empty history.  In the code it
calls `undo()` on a freshly constructed engine whose history is empty, so
after 1. e4 the position stays at the post-e4 position (it is not restored
to the start position) while the snapshot history is erased; the advisory
text survives; and on an empty history it still emits the move sound and
still rewrites the snapshot (and clears any selection). -/
theorem c2_undo_behaviour :
    appAfterE4.gameState.history.length = 1 ∧
    (undoMove appAfterE4Advice).1.game.pos = appAfterE4.game.pos ∧
    (undoMove appAfterE4Advice).1.game.pos ≠ startPosition ∧
    (undoMove appAfterE4Advice).1.gameState.history = [] ∧
    (undoMove appAfterE4Advice).1.analysis = some "advice" ∧
    (undoMove appAfterE4Advice).2 = [SoundType.move] ∧
    (undoMove initialAppState).2 = [SoundType.move] ∧
    (undoMove initialAppState).1.gameState ≠ initialAppState.gameState ∧
    selState.gameState.history = [] ∧
    (undoMove selState).1.selectedSquare = none ∧
    selState.selectedSquare = some 12 := by decide

/-- Claim C5: the spec scenario says 1. e4 e5 yields a snapshot history of
length 2, no captures, white to move, no check.  The code yields history
length 1 (only e5 survives, because `makeMove` rebuilds the engine from FEN
and so discards prior history); the other three facts hold. -/
theorem c5_two_move_scenario :
    (makeMove initialAppState mvE2E4).2.2.isSome = true ∧
    (makeMove appAfterE4 ⟨52, 36, some .queen⟩).2.2.isSome = true ∧
    appAfterE4E5.gameState.history.length = 1 ∧
    appAfterE4E5.gameState.turn = .white ∧
    appAfterE4E5.gameState.isCheck = false ∧
    appAfterE4E5.gameState.captured = ⟨[], []⟩ := by decide

/-- Claim C6 counterexample: with e2 selected, clicking e5 (an illegal
destination) makes the rules engine reject the move, yet the interaction
state is not left unchanged — the selection is cleared. -/
theorem c6_counterexample_selection_cleared :
    selState.selectedSquare = some 12 ∧
    selState.validMoves = [20, 28] ∧
    (makeMove selState ⟨12, 36, some .queen⟩).2.2 = none ∧
    (onSquareClick selState 36).1.selectedSquare = none ∧
    (onSquareClick selState 36).2 = [] := by decide

/-- Claim C7 counterexample: after 1. e4 the game's applied-move history is
non-empty, so this undo is the real (non-empty-history) case in which the
claim requires the advisory text to be cleared — yet `undoMove` contains no
`setAnalysis(null)` and the displayed commentary survives the undo. -/
theorem c7_counterexample_undo_keeps_stale_advice :
    appAfterE4Tip.game.hist =
      [HistMove.mk .white 12 28 .pawn none none] ∧
    appAfterE4Tip.analysis = some "tip" ∧
    (undoMove appAfterE4Tip).1.analysis = some "tip" := by decide

/-- Claim C8 counterexample: with the snapshot recording a draw (bare
kings, insufficient material), `makeMove` itself performs no terminal-state
check: the king move e1→e2 is accepted and mutates the state.  Only the
click handler refuses, so the claim's "every attemptMove is rejected
without state change" fails on `makeMove`. -/
theorem c8_counterexample_draw_still_moves :
    kvkApp.gameState.isDraw = true ∧
    kvkApp.gameState.isCheckmate = false ∧
    (makeMove kvkApp ⟨4, 12, none⟩).2.2.isSome = true ∧
    (makeMove kvkApp ⟨4, 12, none⟩).1.game.pos ≠ kvkApp.game.pos := by decide

/-- Claim C9 counterexample: issue an advisory request at the start
position, play 1. e4 while it is outstanding, then let the result arrive —
it is applied and displayed although the current position differs from the
request's position. -/
theorem c9_counterexample_stale_advice_applied :
    (getCoachAnalysisComplete
        (makeMove (getCoachAnalysisStart initialAppState).1 mvE2E4).1
        "stale advice").analysis = some "stale advice" ∧
    (makeMove (getCoachAnalysisStart initialAppState).1 mvE2E4).1.game.pos ≠
      (getCoachAnalysisStart initialAppState).2.pos := by decide

/-- Claim C9 (amended): the completion handler of the advisory call applies
the returned text unconditionally — it has no access to the request and
performs no staleness comparison — so a result computed for a stale
position is displayed, not discarded. -/
theorem c9_amended_result_applied_unconditionally :
    ∀ (s : AppState) (r : String),
      (getCoachAnalysisComplete s r).analysis = some r ∧
      (getCoachAnalysisComplete s r).isAnalyzing = false ∧
      (getCoachAnalysisComplete s r).game = s.game :=
  fun _ _ => ⟨rfl, rfl, rfl⟩

/-- Claim C3: in every rebuilt snapshot the `winner` field is present iff
`isCheckmate` or `isDraw` holds; when checkmate it is the color opposite
the side to move, when merely drawn it is the draw sentinel, and it is a
single value so never both.  (The `isDraw` field aggregates the engine's
`isDraw` with stalemate and threefold repetition, but the engine's `isDraw`
already subsumes both, which is what makes the iff hold.) -/
theorem c3_winner_iff_terminal :
    ∀ (c : Chess),
      (syncGameState c).winner =
        (if (syncGameState c).isCheckmate then
          some (Winner.color (Color.flip (syncGameState c).turn))
        else if (syncGameState c).isDraw then some Winner.drawn
        else none) ∧
      (syncGameState c).winner.isSome =
        ((syncGameState c).isCheckmate || (syncGameState c).isDraw) := by
  intro c
  have h1 : (syncGameState c).winner =
      (if Chess.isCheckmate c then
        some (Winner.color
          (if Chess.turn c = Color.white then Color.black else Color.white))
      else if Chess.isDraw c then some Winner.drawn else none) := rfl
  have h2 : (syncGameState c).isCheckmate = Chess.isCheckmate c := rfl
  have h3 : (syncGameState c).isDraw =
      (Chess.isDraw c || Chess.isStalemate c ||
        Chess.isThreefoldRepetition c) := rfl
  have h4 : (syncGameState c).turn = Chess.turn c := rfl
  rw [h1, h2, h3, h4]
  unfold Chess.isDraw
  cases hcm : Chess.isCheckmate c <;>
    cases h50 : decide (c.pos.halfmoves ≥ 100) <;>
      cases hst : Chess.isStalemate c <;>
        cases him : insufficientMaterial c.pos.board <;>
          cases hrep : Chess.isThreefoldRepetition c <;>
            cases htn : Chess.turn c <;>
              simp [Color.flip]

/-- Claim C4: for every successful move exactly one feedback event is
emitted, and it is the strict-priority classification of the resulting
metadata (game over, then check, then capture, then plain move); in
particular a capturing checkmate classifies as the end event. -/
theorem c4_feedback_priority :
    ∀ (s : AppState) (mv : MoveInput) (r : HistMove) (chk cap : Bool),
      ((makeMove s mv).2.2 = some r →
        (makeMove s mv).2.1 =
          [feedbackFor
            (Chess.isCheckmate (makeMove s mv).1.game ||
              Chess.isDraw (makeMove s mv).1.game)
            (Chess.isCheck (makeMove s mv).1.game)
            r.captured.isSome]) ∧
      feedbackFor true chk cap = SoundType.gameEnd ∧
      feedbackFor false true cap = SoundType.check ∧
      feedbackFor false false true = SoundType.capture ∧
      feedbackFor false false false = SoundType.move := by
  intro s mv r chk cap
  refine ⟨?_, rfl, rfl, rfl, rfl⟩
  intro hr
  unfold makeMove at hr ⊢
  cases hmv : Chess.move (Chess.fromPos s.game.pos) mv with
  | none =>
    rw [hmv] at hr
    simp at hr
  | some pr =>
    obtain ⟨c2, res⟩ := pr
    rw [hmv] at hr
    dsimp only at hr ⊢
    injection hr with hr2
    subst hr2
    rfl

/-- Claim C4 witness: the opening move 1. e4 emits exactly the classifier's
event for its metadata. -/
theorem c4_feedback_priority_witness :
    (makeMove initialAppState mvE2E4).2.1 =
      [feedbackFor
        (Chess.isCheckmate (makeMove initialAppState mvE2E4).1.game ||
          Chess.isDraw (makeMove initialAppState mvE2E4).1.game)
        (Chess.isCheck (makeMove initialAppState mvE2E4).1.game)
        (HistMove.mk .white 12 28 .pawn none none).captured.isSome] :=
  (c4_feedback_priority initialAppState mvE2E4
    ⟨.white, 12, 28, .pawn, none, none⟩ true true).1 (by decide)

/-- Claim C6 (amended): when the rules engine rejects an attempted move,
the game position, snapshot, and advisory text are unchanged and no
feedback event is emitted — and `makeMove` itself changes nothing at all —
but the click handler then re-runs its selection logic, so the stored
selection and legal-destination list may change (re-select on a friendly
piece, clear otherwise). -/
theorem c6_amended_rejection_effects :
    ∀ (s : AppState) (mv : MoveInput) (src sq : Nat),
      ((makeMove s mv).2.2 = none →
        (makeMove s mv).1 = s ∧ (makeMove s mv).2.1 = []) ∧
      (s.selectedSquare = some src →
        Chess.move (Chess.fromPos s.game.pos) ⟨src, sq, some .queen⟩ = none →
        (onSquareClick s sq).1.game = s.game ∧
        (onSquareClick s sq).1.gameState = s.gameState ∧
        (onSquareClick s sq).1.analysis = s.analysis ∧
        (onSquareClick s sq).2 = []) := by
  intro s mv src sq
  constructor
  · intro h
    unfold makeMove at h ⊢
    cases hmv : Chess.move (Chess.fromPos s.game.pos) mv with
    | none => exact ⟨rfl, rfl⟩
    | some pr =>
      obtain ⟨c2, res⟩ := pr
      rw [hmv] at h
      simp at h
  · intro hsel hrej
    simp only [onSquareClick, makeMove, hsel, hrej]
    split
    · exact ⟨rfl, rfl, rfl, rfl⟩
    · split
      · exact ⟨rfl, rfl, rfl, rfl⟩
      · cases hget : Chess.get s.game sq with
        | none => exact ⟨rfl, rfl, rfl, rfl⟩
        | some p =>
          by_cases hc : p.color = Chess.turn s.game
          · simp only [if_pos hc]
            exact ⟨trivial, trivial, trivial, trivial⟩
          · simp only [if_neg hc]
            exact ⟨trivial, trivial, trivial, trivial⟩

/-- Claim C6 witness: with e2 selected, the rejected click on e5 leaves
position, snapshot and advisory text unchanged and emits nothing. -/
theorem c6_amended_witness :
    (onSquareClick selState 36).1.game = selState.game ∧
    (onSquareClick selState 36).1.gameState = selState.gameState ∧
    (onSquareClick selState 36).1.analysis = selState.analysis ∧
    (onSquareClick selState 36).2 = [] :=
  (c6_amended_rejection_effects selState ⟨12, 36, some .queen⟩ 12 36).2
    (by decide) (by decide)

/-- Claim C7 (amended): the advisory text is cleared on every successful
move application and on reset; `undoMove` does not clear it — but
`undoMove`, as implemented, also never changes the position. -/
theorem c7_amended_advisory_clearing :
    ∀ (s : AppState) (mv : MoveInput),
      ((makeMove s mv).2.2.isSome = true → (makeMove s mv).1.analysis = none) ∧
      (resetGame s).1.analysis = none ∧
      (undoMove s).1.analysis = s.analysis ∧
      (undoMove s).1.game.pos = s.game.pos := by
  intro s mv
  refine ⟨?_, rfl, rfl, rfl⟩
  intro h
  unfold makeMove at h ⊢
  cases hmv : Chess.move (Chess.fromPos s.game.pos) mv with
  | none =>
    rw [hmv] at h
    simp at h
  | some pr =>
    obtain ⟨c2, res⟩ := pr
    rfl

/-- Claim C7 witness: 1. e4 clears the advisory text. -/
theorem c7_amended_witness :
    (makeMove initialAppState mvE2E4).1.analysis = none :=
  (c7_amended_advisory_clearing initialAppState mvE2E4).1 (by decide)

/-- Claim C8 (amended): once the snapshot records a terminal state, every
square click is a complete no-op (state unchanged, no event) — which is the
only path by which the UI attempts moves — but `makeMove` itself performs
no terminal check, so called directly in a drawn position that still has
legal moves it accepts the move (see the counterexample). -/
theorem c8_amended_terminal_clicks_noop :
    ∀ (s : AppState) (sq : Nat),
      (s.gameState.isCheckmate || s.gameState.isDraw) = true →
      onSquareClick s sq = (s, []) := by
  intro s sq h
  unfold onSquareClick
  rw [h]
  simp

/-- Claim C8 witness: in the bare-kings drawn state every click is ignored. -/
theorem c8_amended_witness : onSquareClick kvkApp 4 = (kvkApp, []) :=
  c8_amended_terminal_clicks_noop kvkApp 4 (by decide)

/-- Claim C10: with a selection in a non-terminal state, clicking another
square behaves identically whatever the stored legal-destination list
contains (it is render-only), and whenever the engine accepts the move
from the selected square the click applies it — the attempt is not gated
by membership in the stored list. -/
theorem c10_validmoves_not_consulted :
    ∀ (s : AppState) (src sq : Nat) (v w : List Nat),
      (s.gameState.isCheckmate || s.gameState.isDraw) = false →
      s.selectedSquare = some src →
      sq ≠ src →
      (onSquareClick { s with validMoves := v } sq =
        onSquareClick { s with validMoves := w } sq) ∧
      ((makeMove s ⟨src, sq, some .queen⟩).2.2.isSome = true →
        onSquareClick s sq =
          ((makeMove s ⟨src, sq, some .queen⟩).1,
            (makeMove s ⟨src, sq, some .queen⟩).2.1)) := by
  intro s src sq v w hterm hsel hne
  have hne' : ¬ (src = sq) := fun h => hne h.symm
  constructor
  · simp only [onSquareClick, makeMove, hsel, hterm]
    simp only [Option.some.injEq, hne']
    cases hmv : Chess.move (Chess.fromPos s.game.pos)
        (MoveInput.mk src sq (some PieceKind.queen)) with
    | none =>
      cases hget : Chess.get s.game sq with
      | none => rfl
      | some p =>
        by_cases hc : p.color = Chess.turn s.game
        · simp only [if_pos hc]
          rfl
        · simp only [if_neg hc]
          rfl
    | some pr =>
      obtain ⟨c2, res⟩ := pr
      rfl
  · intro hsome
    simp only [onSquareClick, makeMove, hsel, hterm] at hsome ⊢
    simp only [Option.some.injEq, hne']
    cases hmv : Chess.move (Chess.fromPos s.game.pos)
        (MoveInput.mk src sq (some PieceKind.queen)) with
    | none =>
      rw [hmv] at hsome
      simp at hsome
    | some pr =>
      obtain ⟨c2, res⟩ := pr
      rfl

/-- Claim C10 witness: with e2 selected and an emptied legal-destination
list, clicking e4 still applies the move. -/
theorem c10_witness :
    onSquareClick selStateNoHints 28 =
      ((makeMove selStateNoHints ⟨12, 28, some .queen⟩).1,
        (makeMove selStateNoHints ⟨12, 28, some .queen⟩).2.1) :=
  (c10_validmoves_not_consulted selStateNoHints 12 28 [] [20, 28]
    (by decide) (by decide) (by decide)).2 (by decide)

end ChessApp

